import Mathlib

/-!
# Verification of the s3lazy cache-aside core

A shallow embedding of the caching/fallback decision layer of s3lazy:
the `LazyBackend` orchestrator (GetObject / HeadObject / CopyObject),
the namespace mapper `awsBucketName`, the `isNotFound` classifier, and
the region-dependent `CreateBucket` request construction of the
`LocalStackBackend` adapter.

Byte payloads are lists of naturals, Go `map[string]string` metadata is
an association list updated with last-writer-wins semantics, and the
`gofakes3.Backend` interface consumed by the orchestrator is an abstract
record of operations over an explicit store state.  A concrete map-backed
store (`Store`, the capability described in the spec for the external
cache backends) instantiates that record for the population claims.
-/

namespace S3lazy

/-- A byte payload: `[]byte` / a fully drained `io.Reader`. -/
abbrev Bytes := List Nat

/-- Go `map[string]string` metadata, modelled as an association list. -/
abbrev Meta := List (String × String)

/-- `gofakes3.ObjectRangeRequest`: either an absolute `[Start, End]` byte
range (`FromEnd = false`) or a last-`End`-bytes suffix request
(`FromEnd = true`). -/
structure ObjectRangeRequest where
  Start : Int
  End : Int
  FromEnd : Bool
  deriving DecidableEq, Repr

/-- The gofakes3-side error values produced or inspected by the code:
`KeyNotFound`, `BucketNotFound`, a raw `gofakes3.ErrorCode`, the
`fmt.Errorf("failed to cache %s/%s: %w", ...)` wrapper built by
`LazyBackend.GetObject`, and any other opaque error. -/
inductive Err where
  | noSuchKey (key : String)
  | noSuchBucket (bucket : String)
  | errorCode (code : String)
  | cacheWriteFailed (bucket : String) (key : String) (inner : Err)
  | other (msg : String)
  deriving DecidableEq, Repr

/-- `isNotFound` (localstack.go): true when the error carries the
`NoSuchKey` or `NoSuchBucket` gofakes3 error code. -/
def isNotFound : Err → Bool
  | .noSuchKey _ => true
  | .noSuchBucket _ => true
  | .errorCode c => c = "NoSuchKey" || c = "NoSuchBucket"
  | .cacheWriteFailed _ _ _ => false
  | .other _ => false

/-- `gofakes3.Object`: the result shape of get/head operations. -/
structure Obj where
  name : String
  metadata : Meta
  size : Int
  contents : Bytes
  hash : Bytes
  deriving DecidableEq, Repr

/-- Go map assignment `m[k] = v` on the association-list model:
replace the entry when the key is present, append it otherwise. -/
def metaInsert (m : Meta) (k v : String) : Meta :=
  if m.any (fun e => e.1 = k) then
    m.map (fun e => if e.1 = k then (k, v) else e)
  else
    m ++ [(k, v)]

/-- Go map read `m[k]` (with presence flag) on the association-list model. -/
def metaGet (m : Meta) (k : String) : Option String :=
  (m.find? (fun e => e.1 = k)).map (fun e => e.2)

/-! ## The map-backed cache store

The cache store consumed by the orchestrator is an external
`gofakes3.Backend` (disk, memory, or the LocalStack proxy).  Modelled
from the spec: the Store capability keeps a set of buckets and a map
from (bucket, key) to a stored object; get/head fail with
bucket-not-found / key-not-found on absence, put fails when the target
bucket is absent, and a range descriptor on get selects the requested
byte window of the stored payload. -/

/-- An object at rest in the cache store. -/
structure StoredObj where
  metadata : Meta
  contents : Bytes
  hash : Bytes
  deriving DecidableEq, Repr

/-- The map-backed cache store state. -/
structure Store where
  buckets : List String
  objects : List ((String × String) × StoredObj)
  deriving DecidableEq, Repr

/-- Modelled from the spec: the content-derived integrity tag computed
by the external store on put; modelled as the content itself (no claim
depends on the concrete hash function). -/
def hashBytes (b : Bytes) : Bytes := b

/-- Modelled from the spec: apply a range descriptor to a stored
payload — the requested absolute window, or the requested suffix. -/
def applyRange (contents : Bytes) : Option ObjectRangeRequest → Bytes
  | none => contents
  | some r =>
    if r.FromEnd then contents.drop (contents.length - r.End.toNat)
    else (contents.take (r.End.toNat + 1)).drop r.Start.toNat

/-- Modelled from the spec: cache-store `getObject`. -/
def Store.getObject (s : Store) (bucket key : String)
    (rangeRequest : Option ObjectRangeRequest) : Except Err Obj :=
  if bucket ∈ s.buckets then
    match s.objects.find? (fun e => e.1 = (bucket, key)) with
    | some e =>
      .ok { name := key, metadata := e.2.metadata,
            size := (e.2.contents.length : Int),
            contents := applyRange e.2.contents rangeRequest,
            hash := e.2.hash }
    | none => .error (.noSuchKey key)
  else .error (.noSuchBucket bucket)

/-- Modelled from the spec: cache-store `headObject` — the stored
metadata, size and integrity tag, with no payload. -/
def Store.headObject (s : Store) (bucket key : String) : Except Err Obj :=
  if bucket ∈ s.buckets then
    match s.objects.find? (fun e => e.1 = (bucket, key)) with
    | some e =>
      .ok { name := key, metadata := e.2.metadata,
            size := (e.2.contents.length : Int),
            contents := [], hash := e.2.hash }
    | none => .error (.noSuchKey key)
  else .error (.noSuchBucket bucket)

/-- Modelled from the spec: cache-store `putObject` — store the drained
payload under (bucket, key), failing when the bucket is absent.  The
`size` argument mirrors the Go signature; the stored bytes are the
drained stream. -/
def Store.putObject (s : Store) (bucket key : String) (meta : Meta)
    (body : Bytes) (size : Int) : Except Err Store :=
  if bucket ∈ s.buckets then
    .ok { s with
          objects := ((bucket, key), ⟨meta, body, hashBytes body⟩) ::
            s.objects.filter (fun e => e.1 ≠ (bucket, key)) }
  else .error (.noSuchBucket bucket)

/-- Modelled from the spec: cache-store `copyObject` — read the source
object and write it under the destination. -/
def Store.copyObject (s : Store) (srcBucket srcKey dstBucket dstKey : String)
    (meta : Meta) : Except Err Store :=
  match s.getObject srcBucket srcKey none with
  | .error e => .error e
  | .ok o => s.putObject dstBucket dstKey o.metadata o.contents o.size

/-! ## The origin (AWS) client surface used by the orchestrator -/

/-- The fields of `s3.GetObjectInput` set by the code: `Bucket`, `Key`,
and the `Range` header string (left `nil` ↦ `none` when unset). -/
structure GetObjectInput where
  bucket : String
  key : String
  range : Option String
  deriving DecidableEq, Repr

/-- The fields of `s3.HeadObjectInput` set by the code. -/
structure HeadObjectInput where
  bucket : String
  key : String
  deriving DecidableEq, Repr

/-- The fields of `s3.GetObjectOutput` read by `LazyBackend.GetObject`:
`ContentLength`, `ContentType`, `Metadata`, and the drained `Body`. -/
structure GetObjectOutput where
  contentLength : Option Int
  contentType : Option String
  metadata : Meta
  body : Bytes
  deriving DecidableEq, Repr

/-- The fields of `s3.HeadObjectOutput` read by
`LazyBackend.HeadObject`: `ContentLength`, `ContentType`, and the
(ignored) `Metadata`. -/
structure HeadObjectOutput where
  contentLength : Option Int
  contentType : Option String
  metadata : Meta
  deriving DecidableEq, Repr

/-- The behaviour of `awsClient.GetObject`: a response (or an opaque
AWS-side failure) for each input. -/
abbrev OriginGet := GetObjectInput → Except String GetObjectOutput

/-- The behaviour of `awsClient.HeadObject`. -/
abbrev OriginHead := HeadObjectInput → Except String HeadObjectOutput

/-! ## The abstract local backend

`LazyBackend.local` is any `gofakes3.Backend`; the orchestrator only
uses these four operations on it.  Get/head are queries over the store
state; put/copy return the updated state or fail. -/

/-- The slice of the `gofakes3.Backend` interface used by the
orchestrator, over an explicit store state `St`. -/
structure Backend (St : Type) where
  getObject : St → String → String → Option ObjectRangeRequest → Except Err Obj
  headObject : St → String → String → Except Err Obj
  putObject : St → String → String → Meta → Bytes → Int → Except Err St
  copyObject : St → String → String → String → String → Meta → Except Err St

/-- The map-backed store as a `Backend`. -/
def storeBackend : Backend Store where
  getObject := Store.getObject
  headObject := Store.headObject
  putObject := Store.putObject
  copyObject := Store.copyObject

/-! ## The orchestrator (`LazyBackend`) -/

/-- `LazyBackend.awsBucketName`: resolve a local bucket name through the
bucket mapping, defaulting to the local name. -/
def awsBucketName (bucketMapping : List (String × String))
    (localBucket : String) : String :=
  match bucketMapping.find? (fun e => e.1 = localBucket) with
  | some e => e.2
  | none => localBucket

/-- The metadata map built by `LazyBackend.GetObject` from an origin
response: `meta["Content-Type"] = *ContentType` when present, then all
entries of the origin `Metadata` map. -/
def originMeta (awsObj : GetObjectOutput) : Meta :=
  let meta : Meta :=
    match awsObj.contentType with
    | some ct => metaInsert [] "Content-Type" ct
    | none => []
  awsObj.metadata.foldl (fun acc e => metaInsert acc e.1 e.2) meta

/-- The outcome of one `LazyBackend.GetObject` call: the returned value
or error, the cache-store state afterwards, and the origin `GetObject`
calls issued. -/
structure GetResult (St : Type) where
  result : Except Err Obj
  cache : St
  originCalls : List GetObjectInput
  deriving Repr

/-- `LazyBackend.GetObject`: serve from the cache store; on a
not-found cache error fetch the full object from the origin (mapped
bucket, no range), stream it into a cache-store put, and re-read the
cache store with the original range request.  Origin failures collapse
to `KeyNotFound`; a failed cache put is wrapped as a caching failure. -/
def lazyGetObject {St : Type} (localBackend : Backend St) (cache : St)
    (origin : OriginGet) (bucketMapping : List (String × String))
    (bucketName objectName : String)
    (rangeRequest : Option ObjectRangeRequest) : GetResult St :=
  match localBackend.getObject cache bucketName objectName rangeRequest with
  | .ok obj => ⟨.ok obj, cache, []⟩
  | .error err =>
    if ¬ isNotFound err then ⟨.error err, cache, []⟩
    else
      let awsBucket := awsBucketName bucketMapping bucketName
      let input : GetObjectInput :=
        { bucket := awsBucket, key := objectName, range := none }
      match origin input with
      | .error _ => ⟨.error (.noSuchKey objectName), cache, [input]⟩
      | .ok awsObj =>
        let size : Int := awsObj.contentLength.getD 0
        let meta := originMeta awsObj
        match localBackend.putObject cache bucketName objectName meta
            awsObj.body size with
        | .error e =>
          ⟨.error (.cacheWriteFailed bucketName objectName e), cache, [input]⟩
        | .ok cache2 =>
          ⟨localBackend.getObject cache2 bucketName objectName rangeRequest,
           cache2, [input]⟩

/-- The payload stream of `emptyReader`: it returns EOF immediately, so
it drains to the empty byte sequence. -/
def emptyReaderContents : Bytes := []

/-- The metadata map synthesized by `LazyBackend.HeadObject` from an
origin response: only the content-type entry, when present. -/
def headMeta (awsObj : HeadObjectOutput) : Meta :=
  match awsObj.contentType with
  | some ct => metaInsert [] "Content-Type" ct
  | none => []

/-- The outcome of one `LazyBackend.HeadObject` call. -/
structure HeadResult (St : Type) where
  result : Except Err Obj
  cache : St
  originCalls : List HeadObjectInput
  deriving Repr

/-- `LazyBackend.HeadObject`: serve from the cache store; on a
not-found cache error query the origin `HeadObject` (mapped bucket) and
synthesize a minimal object (content-type metadata, origin size, empty
payload) without writing to the cache store.  Origin failures collapse
to `KeyNotFound`. -/
def lazyHeadObject {St : Type} (localBackend : Backend St) (cache : St)
    (origin : OriginHead) (bucketMapping : List (String × String))
    (bucketName objectName : String) : HeadResult St :=
  match localBackend.headObject cache bucketName objectName with
  | .ok obj => ⟨.ok obj, cache, []⟩
  | .error err =>
    if ¬ isNotFound err then ⟨.error err, cache, []⟩
    else
      let awsBucket := awsBucketName bucketMapping bucketName
      let input : HeadObjectInput := { bucket := awsBucket, key := objectName }
      match origin input with
      | .error _ => ⟨.error (.noSuchKey objectName), cache, [input]⟩
      | .ok awsObj =>
        let meta : Meta := headMeta awsObj
        let size : Int := awsObj.contentLength.getD 0
        ⟨.ok { name := objectName, metadata := meta, size := size,
               contents := emptyReaderContents, hash := [] },
         cache, [input]⟩

/-- The outcome of one `LazyBackend.CopyObject` call. -/
structure CopyResult (St : Type) where
  result : Except Err Unit
  cache : St
  originCalls : List GetObjectInput
  deriving Repr

/-- `LazyBackend.CopyObject`: materialize the source in the cache store
through the orchestrator's own `GetObject` (no range), abort on its
error, then copy locally on the cache store. -/
def lazyCopyObject {St : Type} (localBackend : Backend St) (cache : St)
    (origin : OriginGet) (bucketMapping : List (String × String))
    (srcBucket srcKey dstBucket dstKey : String) (meta : Meta) :
    CopyResult St :=
  let g := lazyGetObject localBackend cache origin bucketMapping
    srcBucket srcKey none
  match g.result with
  | .error e => ⟨.error e, g.cache, g.originCalls⟩
  | .ok _ =>
    match localBackend.copyObject g.cache srcBucket srcKey dstBucket dstKey
        meta with
    | .error e => ⟨.error e, g.cache, g.originCalls⟩
    | .ok cache2 => ⟨.ok (), cache2, g.originCalls⟩

/-! ## The `LocalStackBackend` adapter request construction -/

/-- The `Range` header string built by `LocalStackBackend.GetObject`:
`bytes=-N` for a from-end request, `bytes=S-E` otherwise. -/
def rangeHeader (r : ObjectRangeRequest) : String :=
  if r.FromEnd then "bytes=-" ++ toString r.End
  else "bytes=" ++ toString r.Start ++ "-" ++ toString r.End

/-- The `s3.GetObjectInput` built by `LocalStackBackend.GetObject`:
bucket, key, and the range header when a range request is present. -/
def localStackGetObjectInput (bucketName objectName : String)
    (rangeRequest : Option ObjectRangeRequest) : GetObjectInput :=
  { bucket := bucketName, key := objectName,
    range := rangeRequest.map rangeHeader }

/-- The fields of `s3.CreateBucketInput` set by
`LocalStackBackend.CreateBucket`. -/
structure CreateBucketInput where
  bucket : String
  locationConstraint : Option String
  deriving DecidableEq, Repr

/-- The `s3.CreateBucketInput` built by `LocalStackBackend.CreateBucket`:
the location constraint is attached only when the configured region is
nonempty and not `us-east-1`. -/
def createBucketInput (region name : String) : CreateBucketInput :=
  if region ≠ "" ∧ region ≠ "us-east-1" then
    { bucket := name, locationConstraint := some region }
  else
    { bucket := name, locationConstraint := none }

/-! ## Helper lemmas -/

/-- A backend whose every operation fails with an opaque I/O fault,
modelling a cache store hit by a non-absence error. -/
def ioFaultBackend : Backend Unit where
  getObject := fun _ _ _ _ => .error (.errorCode "InternalError")
  headObject := fun _ _ _ => .error (.errorCode "InternalError")
  putObject := fun _ _ _ _ _ _ => .error (.errorCode "InternalError")
  copyObject := fun _ _ _ _ _ _ => .error (.errorCode "InternalError")

theorem store_getObject_of_miss (cache : Store) (b k : String)
    (r : Option ObjectRangeRequest) (hb : b ∈ cache.buckets)
    (hk : cache.objects.find? (fun e => e.1 = (b, k)) = none) :
    cache.getObject b k r = .error (.noSuchKey k) := by
  simp [Store.getObject, hb, hk]

/-- After a populate-on-miss put, the map store holds the freshly
written object at the head of its object list. -/
theorem store_putObject_of_bucket (cache : Store) (b k : String)
    (meta : Meta) (body : Bytes) (size : Int) (hb : b ∈ cache.buckets) :
    cache.putObject b k meta body size =
      .ok { buckets := cache.buckets,
            objects := ((b, k), ⟨meta, body, hashBytes body⟩) ::
              cache.objects.filter (fun e => e.1 ≠ (b, k)) } := by
  simp [Store.putObject, hb]

theorem store_getObject_insert_self (buckets : List String)
    (l : List ((String × String) × StoredObj)) (b k : String)
    (o : StoredObj) (r : Option ObjectRangeRequest) (hb : b ∈ buckets) :
    Store.getObject ⟨buckets, ((b, k), o) :: l⟩ b k r =
      .ok { name := k, metadata := o.metadata,
            size := (o.contents.length : Int),
            contents := applyRange o.contents r, hash := o.hash } := by
  simp [Store.getObject, hb, List.find?_cons]

/-- The single cache-interaction shape of a populate-on-miss
`GetObject` against the map store: fetch the full object from the
mapped origin bucket, write it, and re-read with the caller's range. -/
theorem lazyGetObject_store_miss (cache : Store) (origin : OriginGet)
    (bucketMapping : List (String × String)) (b k : String)
    (r : Option ObjectRangeRequest) (awsObj : GetObjectOutput)
    (hb : b ∈ cache.buckets)
    (hk : cache.objects.find? (fun e => e.1 = (b, k)) = none)
    (ho : origin { bucket := awsBucketName bucketMapping b, key := k,
                   range := none } = .ok awsObj) :
    lazyGetObject storeBackend cache origin bucketMapping b k r =
      ⟨.ok { name := k, metadata := originMeta awsObj,
             size := (awsObj.body.length : Int),
             contents := applyRange awsObj.body r,
             hash := hashBytes awsObj.body },
       { buckets := cache.buckets,
         objects := ((b, k), ⟨originMeta awsObj, awsObj.body,
             hashBytes awsObj.body⟩) ::
           cache.objects.filter (fun e => e.1 ≠ (b, k)) },
       [{ bucket := awsBucketName bucketMapping b, key := k,
          range := none }]⟩ := by
  unfold lazyGetObject
  have hget : storeBackend.getObject cache b k r = .error (.noSuchKey k) :=
    store_getObject_of_miss cache b k r hb hk
  have hput : storeBackend.putObject cache b k (originMeta awsObj)
      awsObj.body (awsObj.contentLength.getD 0) =
      .ok { buckets := cache.buckets,
            objects := ((b, k), ⟨originMeta awsObj, awsObj.body,
                hashBytes awsObj.body⟩) ::
              cache.objects.filter (fun e => e.1 ≠ (b, k)) } :=
    store_putObject_of_bucket cache b k (originMeta awsObj) awsObj.body
      (awsObj.contentLength.getD 0) hb
  have hre : storeBackend.getObject
      ⟨cache.buckets, ((b, k), ⟨originMeta awsObj, awsObj.body,
          hashBytes awsObj.body⟩) ::
        cache.objects.filter (fun e => e.1 ≠ (b, k))⟩ b k r =
      .ok { name := k, metadata := originMeta awsObj,
            size := (awsObj.body.length : Int),
            contents := applyRange awsObj.body r,
            hash := hashBytes awsObj.body } :=
    store_getObject_insert_self cache.buckets _ b k _ r hb
  simp only [hget, ho, hput, isNotFound]
  simpa using hre

/-! ## Claims -/

/-- C2: for every object already present in the cache store,
`GetObject` returns the cache store's result unchanged, the cache state
is not modified, and the origin client receives zero calls — for an
arbitrary origin behaviour. -/
theorem getObject_cache_hit_no_origin {St : Type} (localBackend : Backend St)
    (cache : St) (origin : OriginGet)
    (bucketMapping : List (String × String)) (bucketName objectName : String)
    (rangeRequest : Option ObjectRangeRequest) (obj : Obj)
    (hhit : localBackend.getObject cache bucketName objectName rangeRequest
      = .ok obj) :
    lazyGetObject localBackend cache origin bucketMapping bucketName
      objectName rangeRequest = ⟨.ok obj, cache, []⟩ := by
  unfold lazyGetObject
  rw [hhit]

/-- Witness for C2: a concrete cached object is served as stored, with
an unreachable origin and an unchanged store. -/
theorem getObject_cache_hit_no_origin_witness :
    lazyGetObject storeBackend ⟨["b"], [(("b", "k"), ⟨[], [1, 2], [1, 2]⟩)]⟩
        (fun _ => .error "origin unreachable") [] "b" "k" none =
      ⟨.ok { name := "k", metadata := [], size := 2, contents := [1, 2],
             hash := [1, 2] },
       ⟨["b"], [(("b", "k"), ⟨[], [1, 2], [1, 2]⟩)]⟩, []⟩ :=
  getObject_cache_hit_no_origin storeBackend
    ⟨["b"], [(("b", "k"), ⟨[], [1, 2], [1, 2]⟩)]⟩
    (fun _ => .error "origin unreachable") [] "b" "k" none
    { name := "k", metadata := [], size := 2, contents := [1, 2],
      hash := [1, 2] } rfl

/-- C3: a cache-store error that is not a bucket/key absence is
propagated unchanged; no origin fetch and no cache write happen — the
origin call list is empty and the cache state is untouched, for an
arbitrary origin behaviour. -/
theorem getObject_cache_error_propagates {St : Type}
    (localBackend : Backend St) (cache : St) (origin : OriginGet)
    (bucketMapping : List (String × String)) (bucketName objectName : String)
    (rangeRequest : Option ObjectRangeRequest) (e : Err)
    (herr : localBackend.getObject cache bucketName objectName rangeRequest
      = .error e)
    (hnf : isNotFound e = false) :
    lazyGetObject localBackend cache origin bucketMapping bucketName
      objectName rangeRequest = ⟨.error e, cache, []⟩ := by
  unfold lazyGetObject
  rw [herr]
  simp [hnf]

/-- Witness for C3: an opaque `InternalError` from the cache store is
returned as-is, with zero origin calls. -/
theorem getObject_cache_error_propagates_witness :
    lazyGetObject ioFaultBackend () (fun _ => .ok ⟨some 1, none, [], [7]⟩)
        [] "b" "k" none =
      ⟨.error (.errorCode "InternalError"), (), []⟩ :=
  getObject_cache_error_propagates ioFaultBackend ()
    (fun _ => .ok ⟨some 1, none, [], [7]⟩) [] "b" "k" none
    (.errorCode "InternalError") rfl rfl

/-- C1: for an object absent from the cache store (existing bucket,
absent key) but present at the origin, `GetObject` succeeds with the
origin payload, size, content-type and remaining metadata, after a
cache-store put of exactly that data, and the returned value is the
re-read of the cache store, which now holds the identical object under
(bucket, key). -/
theorem getObject_miss_populates_cache (cache : Store) (origin : OriginGet)
    (bucketMapping : List (String × String)) (bucketName objectName : String)
    (awsObj : GetObjectOutput)
    (hbucket : bucketName ∈ cache.buckets)
    (hmiss : cache.objects.find? (fun e => e.1 = (bucketName, objectName))
      = none)
    (horigin : origin { bucket := awsBucketName bucketMapping bucketName,
                        key := objectName, range := none } = .ok awsObj) :
    lazyGetObject storeBackend cache origin bucketMapping bucketName
        objectName none =
      ⟨.ok { name := objectName, metadata := originMeta awsObj,
             size := (awsObj.body.length : Int), contents := awsObj.body,
             hash := hashBytes awsObj.body },
       { buckets := cache.buckets,
         objects := ((bucketName, objectName),
             ⟨originMeta awsObj, awsObj.body, hashBytes awsObj.body⟩) ::
           cache.objects.filter (fun e => e.1 ≠ (bucketName, objectName)) },
       [{ bucket := awsBucketName bucketMapping bucketName,
          key := objectName, range := none }]⟩ ∧
    (lazyGetObject storeBackend cache origin bucketMapping bucketName
        objectName none).cache.getObject bucketName objectName none =
      .ok { name := objectName, metadata := originMeta awsObj,
            size := (awsObj.body.length : Int), contents := awsObj.body,
            hash := hashBytes awsObj.body } := by
  have h := lazyGetObject_store_miss cache origin bucketMapping bucketName
    objectName none awsObj hbucket hmiss horigin
  refine ⟨by simpa [applyRange] using h, ?_⟩
  rw [h]
  simpa [applyRange] using store_getObject_insert_self cache.buckets
    (cache.objects.filter (fun e => e.1 ≠ (bucketName, objectName)))
    bucketName objectName
    ⟨originMeta awsObj, awsObj.body, hashBytes awsObj.body⟩ none hbucket

/-- Witness for C1: a two-byte origin object with a content type and an
extra metadata entry is fetched, cached and re-served. -/
theorem getObject_miss_populates_cache_witness :
    lazyGetObject storeBackend ⟨["b"], []⟩
        (fun _ => .ok ⟨some 2, some "text/plain",
          [("X-Amz-Meta-Tag", "v")], [10, 20]⟩) [] "b" "k" none =
      ⟨.ok { name := "k",
             metadata := [("Content-Type", "text/plain"),
               ("X-Amz-Meta-Tag", "v")],
             size := 2, contents := [10, 20], hash := [10, 20] },
       ⟨["b"], [(("b", "k"), ⟨[("Content-Type", "text/plain"),
           ("X-Amz-Meta-Tag", "v")], [10, 20], [10, 20]⟩)]⟩,
       [{ bucket := "b", key := "k", range := none }]⟩ ∧
    (lazyGetObject storeBackend ⟨["b"], []⟩
        (fun _ => .ok ⟨some 2, some "text/plain",
          [("X-Amz-Meta-Tag", "v")], [10, 20]⟩)
        [] "b" "k" none).cache.getObject "b" "k" none =
      .ok { name := "k",
            metadata := [("Content-Type", "text/plain"),
              ("X-Amz-Meta-Tag", "v")],
            size := 2, contents := [10, 20], hash := [10, 20] } :=
  getObject_miss_populates_cache ⟨["b"], []⟩
    (fun _ => .ok ⟨some 2, some "text/plain",
      [("X-Amz-Meta-Tag", "v")], [10, 20]⟩) [] "b" "k"
    ⟨some 2, some "text/plain", [("X-Amz-Meta-Tag", "v")], [10, 20]⟩
    (by decide) rfl rfl

/-- C4: on the miss path, any origin-fetch failure is returned as
`KeyNotFound` for the requested key, while a failure of the
cache-population put is returned as the distinct caching-failure
wrapper; in both cases no payload is returned and the cache is left as
it was. -/
theorem getObject_miss_error_taxonomy {St : Type} (localBackend : Backend St)
    (cache : St) (origin : OriginGet)
    (bucketMapping : List (String × String)) (bucketName objectName : String)
    (rangeRequest : Option ObjectRangeRequest) (e : Err)
    (hmiss : localBackend.getObject cache bucketName objectName rangeRequest
      = .error e)
    (hnf : isNotFound e = true) :
    (∀ msg, origin { bucket := awsBucketName bucketMapping bucketName,
                        key := objectName, range := none } = .error msg →
      lazyGetObject localBackend cache origin bucketMapping bucketName
          objectName rangeRequest =
        ⟨.error (.noSuchKey objectName), cache,
         [{ bucket := awsBucketName bucketMapping bucketName,
            key := objectName, range := none }]⟩) ∧
    (∀ awsObj pe, origin { bucket := awsBucketName bucketMapping bucketName,
                           key := objectName, range := none } = .ok awsObj →
      localBackend.putObject cache bucketName objectName (originMeta awsObj)
          awsObj.body (awsObj.contentLength.getD 0) = .error pe →
      lazyGetObject localBackend cache origin bucketMapping bucketName
          objectName rangeRequest =
        ⟨.error (.cacheWriteFailed bucketName objectName pe), cache,
         [{ bucket := awsBucketName bucketMapping bucketName,
            key := objectName, range := none }]⟩ ∧
      (∀ k2, Err.cacheWriteFailed bucketName objectName pe ≠
        Err.noSuchKey k2)) := by
  constructor
  · intro msg hmsg
    unfold lazyGetObject
    simp [hmiss, hnf, hmsg]
  · intro awsObj pe hok hput
    refine ⟨?_, fun k2 h => Err.noConfusion h⟩
    unfold lazyGetObject
    simp [hmiss, hnf, hok, hput]

/-- Witness for C4: with no local bucket, an origin timeout surfaces as
`KeyNotFound`, and with a successful origin fetch the failing cache put
surfaces as the caching-failure wrapper. -/
theorem getObject_miss_error_taxonomy_witness :
    lazyGetObject storeBackend ⟨[], []⟩ (fun _ => .error "dial tcp: timeout")
        [] "b" "k" none =
      ⟨.error (.noSuchKey "k"), ⟨[], []⟩,
       [{ bucket := "b", key := "k", range := none }]⟩ ∧
    lazyGetObject storeBackend ⟨[], []⟩ (fun _ => .ok ⟨some 1, none, [], [9]⟩)
        [] "b" "k" none =
      ⟨.error (.cacheWriteFailed "b" "k" (.noSuchBucket "b")), ⟨[], []⟩,
       [{ bucket := "b", key := "k", range := none }]⟩ := by
  constructor
  · exact (getObject_miss_error_taxonomy storeBackend ⟨[], []⟩
      (fun _ => .error "dial tcp: timeout") [] "b" "k" none
      (.noSuchBucket "b") rfl rfl).1 "dial tcp: timeout" rfl
  · exact ((getObject_miss_error_taxonomy storeBackend ⟨[], []⟩
      (fun _ => .ok ⟨some 1, none, [], [9]⟩) [] "b" "k" none
      (.noSuchBucket "b") rfl rfl).2 ⟨some 1, none, [], [9]⟩
      (.noSuchBucket "b") rfl rfl).1

/-- C5: the namespace lookup is total and defaults to identity — a
bucket with no mapping entry resolves to itself, a mapped bucket
resolves to its mapped origin name — and with the mapping
dev-bucket ↦ prod-bucket a miss on (dev-bucket, k) issues the origin
fetch against prod-bucket and caches the result under dev-bucket. -/
theorem awsBucketName_default_identity_and_mapping :
    (∀ (bucketMapping : List (String × String)) (localBucket : String),
      (∀ e ∈ bucketMapping, e.1 ≠ localBucket) →
      awsBucketName bucketMapping localBucket = localBucket) ∧
    (∀ (bucketMapping : List (String × String)) (localBucket originName : String),
      bucketMapping.Pairwise (fun a b => a.1 ≠ b.1) →
      (localBucket, originName) ∈ bucketMapping →
      awsBucketName bucketMapping localBucket = originName) ∧
    (∀ (k : String) (cache : Store) (origin : OriginGet)
       (awsObj : GetObjectOutput),
      "dev-bucket" ∈ cache.buckets →
      cache.objects.find? (fun e => e.1 = ("dev-bucket", k)) = none →
      origin { bucket := "prod-bucket", key := k, range := none }
        = .ok awsObj →
      (lazyGetObject storeBackend cache origin
          [("dev-bucket", "prod-bucket")] "dev-bucket" k none).originCalls =
        [{ bucket := "prod-bucket", key := k, range := none }] ∧
      (lazyGetObject storeBackend cache origin
          [("dev-bucket", "prod-bucket")] "dev-bucket" k none).cache.objects.find?
          (fun e => e.1 = ("dev-bucket", k)) =
        some (("dev-bucket", k),
          ⟨originMeta awsObj, awsObj.body, hashBytes awsObj.body⟩)) := by
  refine ⟨?_, ?_, ?_⟩
  · intro bucketMapping localBucket h
    have hfind : bucketMapping.find? (fun e => decide (e.1 = localBucket))
        = none := by
      rw [List.find?_eq_none]
      intro a ha
      simpa using h a ha
    simp [awsBucketName, hfind]
  · intro bucketMapping localBucket originName hpw hmem
    induction bucketMapping with
    | nil => cases hmem
    | cons hd tl ih =>
      rw [List.pairwise_cons] at hpw
      rcases List.mem_cons.mp hmem with hhd | htl
      · rw [← hhd]
        simp [awsBucketName, List.find?_cons]
      · have hne : hd.1 ≠ localBucket := by
          have := hpw.1 (localBucket, originName) htl
          simpa using this
        simpa [awsBucketName, List.find?_cons, hne] using ih hpw.2 htl
  · intro k cache origin awsObj hb hk ho
    have hmap : awsBucketName [("dev-bucket", "prod-bucket")] "dev-bucket"
        = "prod-bucket" := rfl
    have h := lazyGetObject_store_miss cache origin
      [("dev-bucket", "prod-bucket")] "dev-bucket" k none awsObj hb hk
      (by rw [hmap]; exact ho)
    rw [h]
    constructor
    · simp [hmap]
    · simp [List.find?_cons]

/-- Witness for C5: identity default on an unmapped bucket, mapped
lookup, and the concrete dev-bucket ↦ prod-bucket miss scenario. -/
theorem awsBucketName_default_identity_and_mapping_witness :
    awsBucketName [] "plain" = "plain" ∧
    awsBucketName [("dev-bucket", "prod-bucket")] "dev-bucket"
      = "prod-bucket" ∧
    (lazyGetObject storeBackend ⟨["dev-bucket"], []⟩
        (fun _ => .ok ⟨some 1, none, [], [3]⟩)
        [("dev-bucket", "prod-bucket")] "dev-bucket" "k" none).originCalls =
      [{ bucket := "prod-bucket", key := "k", range := none }] ∧
    (lazyGetObject storeBackend ⟨["dev-bucket"], []⟩
        (fun _ => .ok ⟨some 1, none, [], [3]⟩)
        [("dev-bucket", "prod-bucket")] "dev-bucket" "k" none).cache.objects.find?
        (fun e => e.1 = ("dev-bucket", "k")) =
      some (("dev-bucket", "k"), ⟨[], [3], [3]⟩) := by
  refine ⟨?_, ?_, ?_, ?_⟩
  · exact awsBucketName_default_identity_and_mapping.1 [] "plain"
      (by intro e he; cases he)
  · exact awsBucketName_default_identity_and_mapping.2.1
      [("dev-bucket", "prod-bucket")] "dev-bucket" "prod-bucket"
      (by simp) (by simp)
  · exact (awsBucketName_default_identity_and_mapping.2.2 "k"
      ⟨["dev-bucket"], []⟩ (fun _ => .ok ⟨some 1, none, [], [3]⟩)
      ⟨some 1, none, [], [3]⟩ (by decide) rfl rfl).1
  · exact (awsBucketName_default_identity_and_mapping.2.2 "k"
      ⟨["dev-bucket"], []⟩ (fun _ => .ok ⟨some 1, none, [], [3]⟩)
      ⟨some 1, none, [], [3]⟩ (by decide) rfl rfl).2

/-- C6 counterexample: a miss-path `GetObject` carrying the absolute
range [5, 9] issues its origin query with no range at all, although the
range-forwarding request built by the cache-store adapter for the same
descriptor would carry the header bytes=5-9 — the origin query is not
issued with the range. -/
theorem getObject_range_not_forwarded_counterexample :
    (lazyGetObject storeBackend ⟨["b"], []⟩
        (fun _ => .ok ⟨some 10, some "text/plain", [],
          [48, 49, 50, 51, 52, 53, 54, 55, 56, 57]⟩)
        [] "b" "k" (some ⟨5, 9, false⟩)).originCalls =
      [{ bucket := "b", key := "k", range := none }] ∧
    (localStackGetObjectInput "b" "k" (some ⟨5, 9, false⟩)).range =
      some "bytes=5-9" ∧
    ({ bucket := "b", key := "k", range := none } : GetObjectInput).range ≠
      (localStackGetObjectInput "b" "k" (some ⟨5, 9, false⟩)).range := by
  refine ⟨?_, ?_, ?_⟩
  · have h := lazyGetObject_store_miss ⟨["b"], []⟩
      (fun _ => .ok ⟨some 10, some "text/plain", [],
        [48, 49, 50, 51, 52, 53, 54, 55, 56, 57]⟩)
      [] "b" "k" (some ⟨5, 9, false⟩)
      ⟨some 10, some "text/plain", [], [48, 49, 50, 51, 52, 53, 54, 55, 56, 57]⟩
      (by decide) rfl rfl
    rw [h]
    rfl
  · rfl
  · intro h
    simp [localStackGetObjectInput] at h

/-- C6 (amended): on a cache miss with a range descriptor, the origin
fetch is issued without the range — the full object is fetched and
written to the cache store — and the range descriptor is instead
applied by the final cache-store re-read, whose result is returned. -/
theorem getObject_miss_range_applied_on_reread (cache : Store)
    (origin : OriginGet) (bucketMapping : List (String × String))
    (bucketName objectName : String) (r : ObjectRangeRequest)
    (awsObj : GetObjectOutput)
    (hbucket : bucketName ∈ cache.buckets)
    (hmiss : cache.objects.find? (fun e => e.1 = (bucketName, objectName))
      = none)
    (horigin : origin { bucket := awsBucketName bucketMapping bucketName,
                        key := objectName, range := none } = .ok awsObj) :
    lazyGetObject storeBackend cache origin bucketMapping bucketName
        objectName (some r) =
      ⟨.ok { name := objectName, metadata := originMeta awsObj,
             size := (awsObj.body.length : Int),
             contents := applyRange awsObj.body (some r),
             hash := hashBytes awsObj.body },
       { buckets := cache.buckets,
         objects := ((bucketName, objectName),
             ⟨originMeta awsObj, awsObj.body, hashBytes awsObj.body⟩) ::
           cache.objects.filter (fun e => e.1 ≠ (bucketName, objectName)) },
       [{ bucket := awsBucketName bucketMapping bucketName,
          key := objectName, range := none }]⟩ :=
  lazyGetObject_store_miss cache origin bucketMapping bucketName objectName
    (some r) awsObj hbucket hmiss horigin

/-- Witness for the amended C6: the spec's 20-byte object
0123456789abcdefghij; range [5, 9] serves 56789 and the from-end range
of 5 bytes serves fghij, both from a rangeless origin fetch of the
whole payload. -/
theorem getObject_miss_range_applied_on_reread_witness :
    lazyGetObject storeBackend ⟨["b"], []⟩
        (fun _ => .ok ⟨some 20, none, [],
          [48, 49, 50, 51, 52, 53, 54, 55, 56, 57, 97, 98, 99, 100, 101,
           102, 103, 104, 105, 106]⟩) [] "b" "k" (some ⟨5, 9, false⟩) =
      ⟨.ok { name := "k", metadata := [], size := 20,
             contents := [53, 54, 55, 56, 57],
             hash := [48, 49, 50, 51, 52, 53, 54, 55, 56, 57, 97, 98, 99,
               100, 101, 102, 103, 104, 105, 106] },
       ⟨["b"], [(("b", "k"),
         ⟨[], [48, 49, 50, 51, 52, 53, 54, 55, 56, 57, 97, 98, 99, 100,
            101, 102, 103, 104, 105, 106],
          [48, 49, 50, 51, 52, 53, 54, 55, 56, 57, 97, 98, 99, 100, 101,
           102, 103, 104, 105, 106]⟩)]⟩,
       [{ bucket := "b", key := "k", range := none }]⟩ ∧
    (lazyGetObject storeBackend ⟨["b"], []⟩
        (fun _ => .ok ⟨some 20, none, [],
          [48, 49, 50, 51, 52, 53, 54, 55, 56, 57, 97, 98, 99, 100, 101,
           102, 103, 104, 105, 106]⟩) [] "b" "k"
        (some ⟨0, 5, true⟩)).result =
      .ok { name := "k", metadata := [], size := 20,
            contents := [102, 103, 104, 105, 106],
            hash := [48, 49, 50, 51, 52, 53, 54, 55, 56, 57, 97, 98, 99,
              100, 101, 102, 103, 104, 105, 106] } := by
  constructor
  · exact getObject_miss_range_applied_on_reread ⟨["b"], []⟩
      (fun _ => .ok ⟨some 20, none, [],
        [48, 49, 50, 51, 52, 53, 54, 55, 56, 57, 97, 98, 99, 100, 101,
         102, 103, 104, 105, 106]⟩) [] "b" "k" ⟨5, 9, false⟩
      ⟨some 20, none, [],
       [48, 49, 50, 51, 52, 53, 54, 55, 56, 57, 97, 98, 99, 100, 101,
        102, 103, 104, 105, 106]⟩ (by decide) rfl rfl
  · rw [getObject_miss_range_applied_on_reread ⟨["b"], []⟩
      (fun _ => .ok ⟨some 20, none, [],
        [48, 49, 50, 51, 52, 53, 54, 55, 56, 57, 97, 98, 99, 100, 101,
         102, 103, 104, 105, 106]⟩) [] "b" "k" ⟨0, 5, true⟩
      ⟨some 20, none, [],
       [48, 49, 50, 51, 52, 53, 54, 55, 56, 57, 97, 98, 99, 100, 101,
        102, 103, 104, 105, 106]⟩ (by decide) rfl rfl]
    rfl

/-- C7: a `HeadObject` miss leaves the cache state untouched (so an
origin-only object is still absent afterwards), issues exactly one
origin metadata-only query, and on an origin hit returns the minimal
synthesized result with the empty payload stream; an origin failure
collapses to `KeyNotFound`. -/
theorem headObject_miss_never_caches {St : Type} (localBackend : Backend St)
    (cache : St) (origin : OriginHead)
    (bucketMapping : List (String × String)) (bucketName objectName : String)
    (e : Err)
    (hmiss : localBackend.headObject cache bucketName objectName = .error e)
    (hnf : isNotFound e = true) :
    (lazyHeadObject localBackend cache origin bucketMapping bucketName
      objectName).cache = cache ∧
    (lazyHeadObject localBackend cache origin bucketMapping bucketName
      objectName).originCalls =
      [{ bucket := awsBucketName bucketMapping bucketName,
         key := objectName }] ∧
    (∀ awsObj, origin { bucket := awsBucketName bucketMapping bucketName,
                        key := objectName } = .ok awsObj →
      (lazyHeadObject localBackend cache origin bucketMapping bucketName
        objectName).result =
        .ok { name := objectName, metadata := headMeta awsObj,
              size := awsObj.contentLength.getD 0,
              contents := emptyReaderContents, hash := [] }) ∧
    (∀ msg, origin { bucket := awsBucketName bucketMapping bucketName,
                     key := objectName } = .error msg →
      (lazyHeadObject localBackend cache origin bucketMapping bucketName
        objectName).result = .error (.noSuchKey objectName)) := by
  cases horg : origin { bucket := awsBucketName bucketMapping bucketName,
                        key := objectName } with
  | error msg =>
    have hmain : lazyHeadObject localBackend cache origin bucketMapping
        bucketName objectName =
        ⟨.error (.noSuchKey objectName), cache,
         [{ bucket := awsBucketName bucketMapping bucketName,
            key := objectName }]⟩ := by
      unfold lazyHeadObject
      rw [hmiss]
      simp [hnf, horg]
    refine ⟨by rw [hmain], by rw [hmain], ?_, ?_⟩
    · intro awsObj hok
      exact Except.noConfusion hok
    · intro msg2 _
      rw [hmain]
  | ok awsObj =>
    have hmain : lazyHeadObject localBackend cache origin bucketMapping
        bucketName objectName =
        ⟨.ok { name := objectName, metadata := headMeta awsObj,
               size := awsObj.contentLength.getD 0,
               contents := emptyReaderContents, hash := [] }, cache,
         [{ bucket := awsBucketName bucketMapping bucketName,
            key := objectName }]⟩ := by
      unfold lazyHeadObject
      rw [hmiss]
      simp [hnf, horg]
    refine ⟨by rw [hmain], by rw [hmain], ?_, ?_⟩
    · intro awsObj2 hok
      cases hok
      rw [hmain]
    · intro msg hbad
      exact Except.noConfusion hbad

/-- Witness for C7: an origin-only object is head-queried through an
untouched cache store that still does not contain it afterwards. -/
theorem headObject_miss_never_caches_witness :
    (lazyHeadObject storeBackend ⟨["b"], []⟩
      (fun _ => .ok ⟨some 5, some "text/plain", [("X-Amz-Meta-Tag", "v")]⟩)
      [] "b" "k").cache = ⟨["b"], []⟩ ∧
    (lazyHeadObject storeBackend ⟨["b"], []⟩
      (fun _ => .ok ⟨some 5, some "text/plain", [("X-Amz-Meta-Tag", "v")]⟩)
      [] "b" "k").originCalls = [{ bucket := "b", key := "k" }] ∧
    (lazyHeadObject storeBackend ⟨["b"], []⟩
      (fun _ => .ok ⟨some 5, some "text/plain", [("X-Amz-Meta-Tag", "v")]⟩)
      [] "b" "k").result =
      .ok { name := "k", metadata := [("Content-Type", "text/plain")],
            size := 5, contents := [], hash := [] } := by
  have h := headObject_miss_never_caches storeBackend ⟨["b"], []⟩
    (fun _ => .ok ⟨some 5, some "text/plain", [("X-Amz-Meta-Tag", "v")]⟩)
    [] "b" "k" (.noSuchKey "k") rfl rfl
  exact ⟨h.1, h.2.1, h.2.2.1 ⟨some 5, some "text/plain",
    [("X-Amz-Meta-Tag", "v")]⟩ rfl⟩

/-- C8: `CopyObject` first materializes the source through the
orchestrator's own `GetObject` — so an origin-only source is fetched
and cached — then copies on the cache store: on success both source and
destination are present in the cache store, and a failing source
materialization aborts the copy with that error, leaving the state and
origin calls exactly those of the failed get. -/
theorem copyObject_materializes_source :
    (∀ (cache : Store) (origin : OriginGet)
       (bucketMapping : List (String × String))
       (srcBucket srcKey dstBucket dstKey : String) (meta : Meta)
       (awsObj : GetObjectOutput),
      srcBucket ∈ cache.buckets → dstBucket ∈ cache.buckets →
      cache.objects.find? (fun e => e.1 = (srcBucket, srcKey)) = none →
      (dstBucket, dstKey) ≠ (srcBucket, srcKey) →
      origin { bucket := awsBucketName bucketMapping srcBucket,
               key := srcKey, range := none } = .ok awsObj →
      (lazyCopyObject storeBackend cache origin bucketMapping srcBucket
        srcKey dstBucket dstKey meta).result = .ok () ∧
      (lazyCopyObject storeBackend cache origin bucketMapping srcBucket
        srcKey dstBucket dstKey meta).cache.objects.find?
          (fun e => e.1 = (srcBucket, srcKey)) =
        some ((srcBucket, srcKey),
          ⟨originMeta awsObj, awsObj.body, hashBytes awsObj.body⟩) ∧
      (lazyCopyObject storeBackend cache origin bucketMapping srcBucket
        srcKey dstBucket dstKey meta).cache.objects.find?
          (fun e => e.1 = (dstBucket, dstKey)) =
        some ((dstBucket, dstKey),
          ⟨originMeta awsObj, awsObj.body, hashBytes awsObj.body⟩)) ∧
    (∀ (St : Type) (localBackend : Backend St) (cache : St)
       (origin : OriginGet) (bucketMapping : List (String × String))
       (srcBucket srcKey dstBucket dstKey : String) (meta : Meta) (e : Err),
      (lazyGetObject localBackend cache origin bucketMapping srcBucket
        srcKey none).result = .error e →
      lazyCopyObject localBackend cache origin bucketMapping srcBucket
        srcKey dstBucket dstKey meta =
        ⟨.error e,
         (lazyGetObject localBackend cache origin bucketMapping srcBucket
           srcKey none).cache,
         (lazyGetObject localBackend cache origin bucketMapping srcBucket
           srcKey none).originCalls⟩) := by
  constructor
  · intro cache origin bucketMapping srcBucket srcKey dstBucket dstKey meta
      awsObj hsb hdb hk hne ho
    have hsrcne : ((srcBucket, srcKey) : String × String) ≠
        (dstBucket, dstKey) := Ne.symm hne
    have hget := lazyGetObject_store_miss cache origin bucketMapping
      srcBucket srcKey none awsObj hsb hk ho
    have hcget : Store.getObject
        ⟨cache.buckets, ((srcBucket, srcKey),
            ⟨originMeta awsObj, awsObj.body, hashBytes awsObj.body⟩) ::
          cache.objects.filter (fun e => e.1 ≠ (srcBucket, srcKey))⟩
        srcBucket srcKey none =
        .ok { name := srcKey, metadata := originMeta awsObj,
              size := (awsObj.body.length : Int),
              contents := applyRange awsObj.body none,
              hash := hashBytes awsObj.body } :=
      store_getObject_insert_self cache.buckets _ srcBucket srcKey _ none hsb
    have hcopy : Store.copyObject
        { buckets := cache.buckets,
          objects := ((srcBucket, srcKey),
              ⟨originMeta awsObj, awsObj.body, hashBytes awsObj.body⟩) ::
            cache.objects.filter (fun e => e.1 ≠ (srcBucket, srcKey)) }
        srcBucket srcKey dstBucket dstKey meta =
        Except.ok
          { buckets := cache.buckets,
            objects := ((dstBucket, dstKey),
                ⟨originMeta awsObj, awsObj.body, hashBytes awsObj.body⟩) ::
              (((srcBucket, srcKey),
                  ⟨originMeta awsObj, awsObj.body, hashBytes awsObj.body⟩) ::
                cache.objects.filter
                  (fun e => e.1 ≠ (srcBucket, srcKey))).filter
                (fun e => e.1 ≠ (dstBucket, dstKey)) } := by
      unfold Store.copyObject
      rw [hcget]
      simp [Store.putObject, hdb, applyRange, hashBytes]
    have hmain : lazyCopyObject storeBackend cache origin bucketMapping
        srcBucket srcKey dstBucket dstKey meta =
        { result := Except.ok (),
          cache :=
            { buckets := cache.buckets,
              objects := ((dstBucket, dstKey),
                  ⟨originMeta awsObj, awsObj.body, hashBytes awsObj.body⟩) ::
                (((srcBucket, srcKey),
                    ⟨originMeta awsObj, awsObj.body, hashBytes awsObj.body⟩) ::
                  cache.objects.filter
                    (fun e => e.1 ≠ (srcBucket, srcKey))).filter
                  (fun e => e.1 ≠ (dstBucket, dstKey)) },
          originCalls := [{ bucket := awsBucketName bucketMapping srcBucket,
                            key := srcKey, range := none }] } := by
      simp only [lazyCopyObject]
      rw [hget]
      dsimp only
      rw [show storeBackend.copyObject
        { buckets := cache.buckets,
          objects := ((srcBucket, srcKey),
              ⟨originMeta awsObj, awsObj.body, hashBytes awsObj.body⟩) ::
            cache.objects.filter (fun e => e.1 ≠ (srcBucket, srcKey)) }
        srcBucket srcKey dstBucket dstKey meta = _ from hcopy]
    refine ⟨by rw [hmain], ?_, ?_⟩
    · rw [hmain]
      simp [List.find?_cons, List.filter_cons, hne, hsrcne]
    · rw [hmain]
      simp [List.find?_cons]
  · intro St localBackend cache origin bucketMapping srcBucket srcKey
      dstBucket dstKey meta e hfail
    simp only [lazyCopyObject]
    rw [hfail]

/-- Witness for C8: an origin-only source is copied after implicit
caching (both objects present afterwards), and a failed source
materialization aborts a copy through an empty store. -/
theorem copyObject_materializes_source_witness :
    (lazyCopyObject storeBackend ⟨["s", "d"], []⟩
      (fun _ => .ok ⟨some 1, some "t", [], [7]⟩) [] "s" "k1" "d" "k2"
      []).result = .ok () ∧
    (lazyCopyObject storeBackend ⟨["s", "d"], []⟩
      (fun _ => .ok ⟨some 1, some "t", [], [7]⟩) [] "s" "k1" "d" "k2"
      []).cache.objects.find? (fun e => e.1 = ("s", "k1")) =
      some (("s", "k1"), ⟨[("Content-Type", "t")], [7], [7]⟩) ∧
    (lazyCopyObject storeBackend ⟨["s", "d"], []⟩
      (fun _ => .ok ⟨some 1, some "t", [], [7]⟩) [] "s" "k1" "d" "k2"
      []).cache.objects.find? (fun e => e.1 = ("d", "k2")) =
      some (("d", "k2"), ⟨[("Content-Type", "t")], [7], [7]⟩) ∧
    lazyCopyObject storeBackend ⟨[], []⟩ (fun _ => .error "down") []
        "s" "k1" "d" "k2" [] =
      ⟨.error (.noSuchKey "k1"), ⟨[], []⟩,
       [{ bucket := "s", key := "k1", range := none }]⟩ := by
  have h := copyObject_materializes_source.1 ⟨["s", "d"], []⟩
    (fun _ => .ok ⟨some 1, some "t", [], [7]⟩) [] "s" "k1" "d" "k2" []
    ⟨some 1, some "t", [], [7]⟩ (by decide) (by decide) rfl (by decide) rfl
  refine ⟨h.1, h.2.1, h.2.2, ?_⟩
  exact copyObject_materializes_source.2 Store storeBackend ⟨[], []⟩
    (fun _ => .error "down") [] "s" "k1" "d" "k2" [] (.noSuchKey "k1") rfl

/-- C9 counterexample: the empty configured region differs from
us-east-1, yet the CreateBucket request built for it carries no
location constraint at all — in particular not the configured region. -/
theorem createBucket_empty_region_counterexample :
    ("" : String) ≠ "us-east-1" ∧
    (createBucketInput "" "bucket").locationConstraint = none ∧
    (createBucketInput "" "bucket").locationConstraint ≠ some "" := by
  refine ⟨by decide, rfl, by decide⟩

/-- C9 (amended): the CreateBucket request carries the configured
region as its location constraint exactly when that region is nonempty
and differs from us-east-1; both us-east-1 and the empty region omit
the constraint, and the bucket name is always the requested one. -/
theorem createBucket_location_constraint :
    (∀ name, (createBucketInput "us-east-1" name).locationConstraint
      = none) ∧
    (∀ name, (createBucketInput "" name).locationConstraint = none) ∧
    (∀ region name, region ≠ "" → region ≠ "us-east-1" →
      (createBucketInput region name).locationConstraint = some region) ∧
    (∀ region name, (createBucketInput region name).bucket = name) := by
  refine ⟨fun name => rfl, fun name => rfl, ?_, ?_⟩
  · intro region name h1 h2
    simp [createBucketInput, h1, h2]
  · intro region name
    unfold createBucketInput
    split <;> rfl

/-- Witness for the amended C9: us-east-1 omits the constraint,
eu-west-1 carries it. -/
theorem createBucket_location_constraint_witness :
    (createBucketInput "us-east-1" "b").locationConstraint = none ∧
    (createBucketInput "eu-west-1" "b").locationConstraint
      = some "eu-west-1" :=
  ⟨createBucket_location_constraint.1 "b",
   createBucket_location_constraint.2.2.1 "eu-west-1" "b" (by decide)
     (by decide)⟩

/-- C10: the result `HeadObject` synthesizes from an origin hit carries
only the origin size and content-type over an immediately-EOF payload:
its integrity tag is empty and every non-content-type metadata key is
absent, whereas a result served by the cache store keeps the stored
metadata and integrity tag. -/
theorem headObject_origin_hit_minimal_result :
    (∀ (St : Type) (localBackend : Backend St) (cache : St)
       (origin : OriginHead) (bucketMapping : List (String × String))
       (bucketName objectName : String) (e : Err)
       (awsObj : HeadObjectOutput),
      localBackend.headObject cache bucketName objectName = .error e →
      isNotFound e = true →
      origin { bucket := awsBucketName bucketMapping bucketName,
               key := objectName } = .ok awsObj →
      (lazyHeadObject localBackend cache origin bucketMapping bucketName
        objectName).result =
        .ok { name := objectName, metadata := headMeta awsObj,
              size := awsObj.contentLength.getD 0,
              contents := emptyReaderContents, hash := [] }) ∧
    (∀ awsObj : HeadObjectOutput,
      metaGet (headMeta awsObj) "Content-Type" = awsObj.contentType ∧
      ∀ k2, k2 ≠ "Content-Type" → metaGet (headMeta awsObj) k2 = none) ∧
    (∀ (s : Store) (bucketName objectName : String) (so : StoredObj),
      bucketName ∈ s.buckets →
      s.objects.find? (fun e => e.1 = (bucketName, objectName)) =
        some ((bucketName, objectName), so) →
      s.headObject bucketName objectName =
        .ok { name := objectName, metadata := so.metadata,
              size := (so.contents.length : Int), contents := [],
              hash := so.hash }) := by
  refine ⟨?_, ?_, ?_⟩
  · intro St localBackend cache origin bucketMapping bucketName objectName
      e awsObj hmiss hnf ho
    unfold lazyHeadObject
    rw [hmiss]
    simp [hnf, ho]
  · intro awsObj
    constructor
    · cases h : awsObj.contentType with
      | none => simp [headMeta, h, metaGet]
      | some ct => simp [headMeta, h, metaGet, metaInsert, List.find?_cons]
    · intro k2 hk2
      cases h : awsObj.contentType with
      | none => simp [headMeta, h, metaGet]
      | some ct =>
        simp [headMeta, h, metaGet, metaInsert, List.find?_cons,
          Ne.symm hk2]
  · intro s bucketName objectName so hb hfind
    simp [Store.headObject, hb, hfind]

/-- Witness for C10: an origin hit with extra origin metadata yields
only the content-type entry, an empty hash and an empty payload, while
a cache-store head keeps the stored nonempty hash. -/
theorem headObject_origin_hit_minimal_result_witness :
    (lazyHeadObject storeBackend ⟨["b"], []⟩
      (fun _ => .ok ⟨some 5, some "application/json",
        [("X-Amz-Meta-Extra", "x")]⟩) [] "b" "k").result =
      .ok { name := "k", metadata := [("Content-Type", "application/json")],
            size := 5, contents := [], hash := [] } ∧
    metaGet (headMeta ⟨some 5, some "application/json",
      [("X-Amz-Meta-Extra", "x")]⟩) "X-Amz-Meta-Extra" = none ∧
    Store.headObject ⟨["b"], [(("b", "k2"),
        ⟨[("Content-Type", "a")], [1], [9]⟩)]⟩ "b" "k2" =
      .ok { name := "k2", metadata := [("Content-Type", "a")], size := 1,
            contents := [], hash := [9] } := by
  refine ⟨?_, ?_, ?_⟩
  · exact headObject_origin_hit_minimal_result.1 Store storeBackend
      ⟨["b"], []⟩ (fun _ => .ok ⟨some 5, some "application/json",
        [("X-Amz-Meta-Extra", "x")]⟩) [] "b" "k" (.noSuchKey "k")
      ⟨some 5, some "application/json", [("X-Amz-Meta-Extra", "x")]⟩
      rfl rfl rfl
  · exact (headObject_origin_hit_minimal_result.2.1
      ⟨some 5, some "application/json", [("X-Amz-Meta-Extra", "x")]⟩).2
      "X-Amz-Meta-Extra" (by decide)
  · exact headObject_origin_hit_minimal_result.2.2
      ⟨["b"], [(("b", "k2"), ⟨[("Content-Type", "a")], [1], [9]⟩)]⟩
      "b" "k2" ⟨[("Content-Type", "a")], [1], [9]⟩ (by decide) rfl

end S3lazy
